import Mathlib

/-!
Shallow embedding of `todo-threader` (src/main.rs): a CLI that relays
task commands to a display device over a serial link.  Serial writes and
reads are modelled by their outcomes (`Except E Nat`, `Ok` carrying the
byte count as in `std::io::Result<usize>`); each operation produces the
trace of calls and log reports it makes, plus its result where the Rust
function returns a `Result`.
-/

namespace TodoThreader

variable {E : Type}

/-- Outcomes of the single write call and the single read call one
dispatch attempt makes against the device. -/
structure Transport (E : Type) where
  writeRes : Except E Nat
  readRes : Except E Nat

/-- Observable events of one operation: the serial calls it performs and
the per-call outcome reports it logs. -/
inductive Ev (E : Type) where
  | writeCall (payload : List Char) (res : Except E Nat)
  | readCall (res : Except E Nat)
  | reportWriteOk (n : Nat)
  | reportWriteErr (e : E)
  | reportReadOk (n : Nat)
  | reportReadErr (e : E)

/-- Payloads of the write calls in a trace, in order. -/
def writesOf : List (Ev E) → List (List Char)
  | [] => []
  | Ev.writeCall p _ :: rest => p :: writesOf rest
  | _ :: rest => writesOf rest

/-- Number of read calls in a trace. -/
def countReads : List (Ev E) → Nat
  | [] => 0
  | Ev.readCall _ :: rest => countReads rest + 1
  | _ :: rest => countReads rest

/-- Embedding of `color.strip_prefix("#").unwrap_or(color)` from
`following` and `add`: drop one leading hash character if present. -/
def stripHash : List Char → List Char
  | [] => []
  | a :: rest => if a = '#' then rest else a :: rest

/-- Embedding of `test` (main.rs 216-242): writes the literal bytes of
`ping` and reports that outcome, then always reads one byte and reports
that outcome; the Rust function returns `()`, never an error, so the
trace is its whole observable behaviour. -/
def test (tr : Transport E) : List (Ev E) :=
  Ev.writeCall "ping".toList tr.writeRes ::
    (match tr.writeRes with
      | .ok n => Ev.reportWriteOk n
      | .error e => Ev.reportWriteErr e) ::
    Ev.readCall tr.readRes ::
    [match tr.readRes with
      | .ok n => Ev.reportReadOk n
      | .error e => Ev.reportReadErr e]

/-- Embedding of `raw` (main.rs 244-258): writes the payload verbatim and
reports, then always reads one byte and reports; returns `()` in Rust. -/
def raw (tr : Transport E) (payload : List Char) : List (Ev E) :=
  Ev.writeCall payload tr.writeRes ::
    (match tr.writeRes with
      | .ok n => Ev.reportWriteOk n
      | .error e => Ev.reportWriteErr e) ::
    Ev.readCall tr.readRes ::
    [match tr.readRes with
      | .ok n => Ev.reportReadOk n
      | .error e => Ev.reportReadErr e]

/-- Embedding of `next` (main.rs 260-265): `device.write("NXT")?` then a
one-byte `device.read(..)?`; the `?` short-circuits, so the read is only
attempted after a successful write, and the first failure is returned. -/
def next (tr : Transport E) : List (Ev E) × Except E Unit :=
  match tr.writeRes with
  | .error e => ([Ev.writeCall "NXT".toList (.error e)], .error e)
  | .ok n =>
    match tr.readRes with
    | .error e =>
      ([Ev.writeCall "NXT".toList (.ok n), Ev.readCall (.error e)], .error e)
    | .ok m =>
      ([Ev.writeCall "NXT".toList (.ok n), Ev.readCall (.ok m)], .ok ())

/-- Embedding of `swap` (main.rs 267-272): like `next` with `SWP`. -/
def swap (tr : Transport E) : List (Ev E) × Except E Unit :=
  match tr.writeRes with
  | .error e => ([Ev.writeCall "SWP".toList (.error e)], .error e)
  | .ok n =>
    match tr.readRes with
    | .error e =>
      ([Ev.writeCall "SWP".toList (.ok n), Ev.readCall (.error e)], .error e)
    | .ok m =>
      ([Ev.writeCall "SWP".toList (.ok n), Ev.readCall (.ok m)], .ok ())

/-- Wire payload built by `following` (main.rs 279-286):
`format!("FLW{};{}", message, color.strip_prefix("#").unwrap_or(color))`. -/
def followingPayload (message color : List Char) : List Char :=
  "FLW".toList ++ message ++ ';' :: stripHash color

/-- Wire payload built by `add` (main.rs 297-304). -/
def addPayload (message color : List Char) : List Char :=
  "ADD".toList ++ message ++ ';' :: stripHash color

/-- Embedding of `following` (main.rs 274-290): write the `FLW` payload,
then a one-byte read, both behind `?`. -/
def following (tr : Transport E) (message color : List Char) :
    List (Ev E) × Except E Unit :=
  match tr.writeRes with
  | .error e =>
    ([Ev.writeCall (followingPayload message color) (.error e)], .error e)
  | .ok n =>
    match tr.readRes with
    | .error e =>
      ([Ev.writeCall (followingPayload message color) (.ok n),
        Ev.readCall (.error e)], .error e)
    | .ok m =>
      ([Ev.writeCall (followingPayload message color) (.ok n),
        Ev.readCall (.ok m)], .ok ())

/-- Embedding of `add` (main.rs 292-308): write the `ADD` payload, then a
one-byte read, both behind `?`. -/
def add (tr : Transport E) (message color : List Char) :
    List (Ev E) × Except E Unit :=
  match tr.writeRes with
  | .error e =>
    ([Ev.writeCall (addPayload message color) (.error e)], .error e)
  | .ok n =>
    match tr.readRes with
    | .error e =>
      ([Ev.writeCall (addPayload message color) (.ok n),
        Ev.readCall (.error e)], .error e)
    | .ok m =>
      ([Ev.writeCall (addPayload message color) (.ok n),
        Ev.readCall (.ok m)], .ok ())

/-- The retry bound `const RETRIES: u8 = 5` (main.rs 10). -/
def RETRIES : Nat := 5

/-- Embedding of the loop body of `for i in 0..RETRIES` (main.rs
180-212): `f i` is the outcome of attempt number `i`; on success the
loop breaks, on failure it logs and continues.  Returns how many
attempts ran and whether the last one succeeded. -/
def retryRun (f : Nat → Except E Unit) : Nat → Nat → Nat × Bool
  | _, 0 => (0, false)
  | i, fuel + 1 =>
    match f i with
    | .ok _ => (1, true)
    | .error _ =>
      let r := retryRun f (i + 1) fuel
      (r.1 + 1, r.2)

/-- The whole retry loop: attempts indexed from 0, at most `RETRIES`. -/
def retryLoop (f : Nat → Except E Unit) : Nat × Bool :=
  retryRun f 0 RETRIES

/-- Model of `rand`'s `gen_range(lo..hi)` on a half-open integer range:
the generator's underlying draw `raw` (any natural number is possible)
is reduced into the range, so the result always lies in `[lo, hi)` and
every value of `[lo, hi)` arises from some draw. -/
def gen_range (lo hi raw : Nat) : Nat := lo + raw % (hi - lo)

/-- Uppercase hexadecimal digit for a value below 16, as produced by
Rust's `X` format specifier. -/
def hexDigitChar : Nat → Char
  | 0 => '0'
  | 1 => '1'
  | 2 => '2'
  | 3 => '3'
  | 4 => '4'
  | 5 => '5'
  | 6 => '6'
  | 7 => '7'
  | 8 => '8'
  | 9 => '9'
  | 10 => 'A'
  | 11 => 'B'
  | 12 => 'C'
  | 13 => 'D'
  | 14 => 'E'
  | _ => 'F'

/-- Fuel-bounded base-16 digit expansion, most significant digit first;
fuel `n + 1` always suffices, see `toHexAux_eq_toHexW`. -/
def toHexAux : Nat → Nat → List Char → List Char
  | 0, _, acc => acc
  | fuel + 1, n, acc =>
    if n < 16 then hexDigitChar n :: acc
    else toHexAux fuel (n / 16) (hexDigitChar (n % 16) :: acc)

/-- Uppercase hexadecimal rendering of `n` with no padding, as produced
by Rust's `X` format specifier (a single `0` for zero). -/
def toHexUpper (n : Nat) : List Char := toHexAux (n + 1) n []

/-- Recursive specification of `toHexUpper`, convenient for proofs. -/
def toHexW (n : Nat) : List Char :=
  if _h : n < 16 then [hexDigitChar n]
  else toHexW (n / 16) ++ [hexDigitChar (n % 16)]
termination_by n
decreasing_by simp_wf; omega

/-- Embedding of `format!("#{:X}", num)` (main.rs 195): a hash sign
followed by the unpadded uppercase hexadecimal digits. -/
def formatColor (n : Nat) : List Char := '#' :: toHexUpper n

/-- The color string dispatched in random mode (main.rs 192-195). -/
def randColorFormat (raw : Nat) : List Char :=
  formatColor (gen_range 0 16777215 raw)

/-- Numeric value of one hexadecimal digit character (only used on
characters produced by `hexDigitChar` or the padding `0`). -/
def hexDigitVal (c : Char) : Nat :=
  if c.toNat ≤ 57 then c.toNat - 48 else c.toNat - 55

/-- Hexadecimal parsing of a digit string, most significant first. -/
def fromHexUpper (l : List Char) : Nat :=
  l.foldl (fun a c => 16 * a + hexDigitVal c) 0

/-- Zero-pad a digit string on the left to 6 characters. -/
def padLeft6 (l : List Char) : List Char :=
  List.replicate (6 - l.length) '0' ++ l

/-- One character of the class `[0-9A-Fa-f]`. -/
def isHexDigitChar (c : Char) : Bool :=
  (48 ≤ c.toNat && c.toNat ≤ 57) || (65 ≤ c.toNat && c.toNat ≤ 70) ||
    (97 ≤ c.toNat && c.toNat ≤ 102)

/-- The regular expression `[0-9A-Fa-f]` repeated exactly 6 times,
anchored at both ends. -/
def isHexColor (c : List Char) : Bool :=
  c.length == 6 && c.all isHexDigitChar

/-- The clap default value of the `Color` argument (main.rs 104). -/
def defaultColor : List Char := "#FFFFFF".toList

/-- The operation-selecting argument state `main` inspects after clap
parsing: presence flags and values of the mutating selectors, the
`Random` flag, and the resolved `Color` value. -/
structure Args where
  next : Bool
  swap : Bool
  following : Option (List Char)
  add : Option (List Char)
  random : Bool
  color : List Char

/-- A mutating command as dispatched by one iteration of the retry
loop: which serial function is called and with which arguments. -/
inductive Dispatch where
  | dnext
  | dswap
  | dfollowing (task color : List Char)
  | dadd (task color : List Char)
deriving DecidableEq

/-- Embedding of the branch chain inside the retry loop (main.rs
181-204): `Next`, then `Swap`, then `Following`, and otherwise the `Add`
branch, which alone computes the color — randomly via
`gen_range(0..16777215)` when `Random` is present, else the `Color`
value.  The boolean records whether a random value was drawn.  `none`
models the guard of main.rs 175-179 not being satisfied. -/
def chooseMutating (a : Args) (rawDraw : Nat) : Option (Dispatch × Bool) :=
  if a.next then some (Dispatch.dnext, false)
  else if a.swap then some (Dispatch.dswap, false)
  else
    match a.following with
    | some t => some (Dispatch.dfollowing t a.color, false)
    | none =>
      match a.add with
      | some t =>
        let c : List Char :=
          if a.random then randColorFormat rawDraw else a.color
        some (Dispatch.dadd t c, a.random)
      | none => none

/-- Serial line-control calls issued by `main` right after opening. -/
inductive LineCall where
  | dtr (value : Bool)
  | rts (value : Bool)
deriving DecidableEq

/-- How far `main` gets before reaching the command branches. -/
inductive SetupOutcome where
  | openPanicked
  | linePanicked
  | commandPhase
deriving DecidableEq

/-- Embedding of main.rs 160-169: a failed open panics before any line
control; after a successful open,
`device.write_data_terminal_ready(false).unwrap()` then
`device.write_request_to_send(false).unwrap()` run unconditionally, and
a failure of either unwrap panics before any command is attempted. -/
def mainSetup (openOk dtrOk rtsOk : Bool) : List LineCall × SetupOutcome :=
  if openOk = false then ([], SetupOutcome.openPanicked)
  else if dtrOk = false then ([LineCall.dtr false], SetupOutcome.linePanicked)
  else if rtsOk = false then
    ([LineCall.dtr false, LineCall.rts false], SetupOutcome.linePanicked)
  else ([LineCall.dtr false, LineCall.rts false], SetupOutcome.commandPhase)

/-- Success test on a call or dispatch result (`Result::is_ok`). -/
def isOkb {α : Type} : Except E α → Bool
  | .ok _ => true
  | .error _ => false

theorem retryRun_all_fail (f : Nat → Except E Unit) :
    ∀ fuel i : Nat, (∀ j, j < fuel → isOkb (f (i + j)) = false) →
      retryRun f i fuel = (fuel, false) := by
  intro fuel
  induction fuel with
  | zero => intro i _; rfl
  | succ fl ih =>
    intro i h
    cases hf : f i with
    | ok u =>
      exfalso
      have h0 := h 0 (Nat.succ_pos fl)
      rw [Nat.add_zero, hf] at h0
      simp [isOkb] at h0
    | error e =>
      have hrec : retryRun f (i + 1) fl = (fl, false) := by
        apply ih
        intro j hj
        have hh := h (j + 1) (by omega)
        have heq : i + (j + 1) = i + 1 + j := by omega
        rwa [heq] at hh
      simp only [retryRun, hf, hrec]

theorem retryRun_first_success (f : Nat → Except E Unit) :
    ∀ fuel k i : Nat, k < fuel → isOkb (f (i + k)) = true →
      (∀ j, j < k → isOkb (f (i + j)) = false) →
      retryRun f i fuel = (k + 1, true) := by
  intro fuel
  induction fuel with
  | zero => intro k i h; omega
  | succ fl ih =>
    intro k i hk hsucc hfail
    cases k with
    | zero =>
      rw [Nat.add_zero] at hsucc
      cases hf : f i with
      | ok u => simp only [retryRun, hf]
      | error e => rw [hf] at hsucc; simp [isOkb] at hsucc
    | succ k' =>
      have hf0 := hfail 0 (by omega)
      rw [Nat.add_zero] at hf0
      cases hf : f i with
      | ok u => rw [hf] at hf0; simp [isOkb] at hf0
      | error e =>
        have hrec : retryRun f (i + 1) fl = (k' + 1, true) := by
          apply ih k' (i + 1) (by omega)
          · have heq : i + (k' + 1) = i + 1 + k' := by omega
            rwa [heq] at hsucc
          · intro j hj
            have hh := hfail (j + 1) (by omega)
            have heq : i + (j + 1) = i + 1 + j := by omega
            rwa [heq] at hh
        simp only [retryRun, hf, hrec]

theorem writesOf_test (tr : Transport E) :
    writesOf (test tr) = ["ping".toList] := by
  rcases tr with ⟨w, r⟩; cases w <;> cases r <;> rfl

theorem writesOf_raw (tr : Transport E) (p : List Char) :
    writesOf (raw tr p) = [p] := by
  rcases tr with ⟨w, r⟩; cases w <;> cases r <;> rfl

theorem countReads_test (tr : Transport E) : countReads (test tr) = 1 := by
  rcases tr with ⟨w, r⟩; cases w <;> cases r <;> rfl

theorem countReads_raw (tr : Transport E) (p : List Char) :
    countReads (raw tr p) = 1 := by
  rcases tr with ⟨w, r⟩; cases w <;> cases r <;> rfl

theorem writesOf_next (tr : Transport E) :
    writesOf (next tr).1 = ["NXT".toList] := by
  rcases tr with ⟨w, r⟩; cases w <;> cases r <;> rfl

theorem writesOf_swap (tr : Transport E) :
    writesOf (swap tr).1 = ["SWP".toList] := by
  rcases tr with ⟨w, r⟩; cases w <;> cases r <;> rfl

theorem writesOf_following (tr : Transport E) (t c : List Char) :
    writesOf (following tr t c).1 = [followingPayload t c] := by
  rcases tr with ⟨w, r⟩; cases w <;> cases r <;> rfl

theorem writesOf_add (tr : Transport E) (t c : List Char) :
    writesOf (add tr t c).1 = [addPayload t c] := by
  rcases tr with ⟨w, r⟩; cases w <;> cases r <;> rfl

/-- C1: for every sequence of attempt outcomes, the mutating-operation
retry wrapper attempts until the first success, up to the fixed maximum
of `RETRIES = 5` attempts: with no success among the first 5 outcomes it
performs exactly 5 attempts and stops unsuccessfully, and with first
success at attempt index `k` it performs exactly `k + 1` attempts and
reports success (so failing twice then succeeding gives 3 attempts). -/
theorem C1_retry_until_first_success (E : Type) (f : Nat → Except E Unit) :
    ((∀ j, j < RETRIES → isOkb (f j) = false) → retryLoop f = (RETRIES, false)) ∧
    (∀ k, k < RETRIES → isOkb (f k) = true →
      (∀ j, j < k → isOkb (f j) = false) → retryLoop f = (k + 1, true)) := by
  constructor
  · intro h
    unfold retryLoop
    apply retryRun_all_fail
    intro j hj
    simpa using h j hj
  · intro k hk hs hf
    unfold retryLoop
    apply retryRun_first_success f RETRIES k 0 hk
    · simpa using hs
    · intro j hj
      simpa using hf j hj

/-- Witness for C1: failing the first 2 attempts and succeeding on the
3rd gives exactly 3 attempts and success; always failing gives exactly 5
attempts and no success. -/
theorem C1_retry_until_first_success_witness :
    retryLoop (fun i => if i < 2 then Except.error () else Except.ok ()) =
      (3, true) ∧
    retryLoop (fun _ : Nat => (Except.error () : Except Unit Unit)) =
      (RETRIES, false) := by
  constructor
  · exact (C1_retry_until_first_success Unit
      (fun i => if i < 2 then Except.error () else Except.ok ())).2 2
      (by decide) (by decide) (by decide)
  · exact (C1_retry_until_first_success Unit
      (fun _ : Nat => (Except.error () : Except Unit Unit))).1
      (fun j _ => by decide)

theorem stripHash_cons (a : Char) (rest : List Char) (h : a ≠ '#') :
    stripHash (a :: rest) = a :: rest := by
  simp [stripHash, h]

theorem stripHash_hash (rest : List Char) : stripHash ('#' :: rest) = rest := by
  simp [stripHash]

theorem isHexDigitChar_ne_hash (a : Char) (h : isHexDigitChar a = true) :
    a ≠ '#' := by
  intro heq
  subst heq
  simp [isHexDigitChar] at h

theorem stripHash_of_isHexColor (c : List Char) (h : isHexColor c = true) :
    stripHash c = c := by
  cases c with
  | nil => rfl
  | cons a rest =>
    simp only [isHexColor, Bool.and_eq_true, List.all_cons] at h
    exact stripHash_cons a rest (isHexDigitChar_ne_hash a h.2.1)

theorem stripHash_of_head_ne (c : List Char) (h : c.head? ≠ some '#') :
    stripHash c = c := by
  cases c with
  | nil => rfl
  | cons a rest =>
    apply stripHash_cons
    intro heq
    subst heq
    exact h rfl

/-- C3: for every task and every color matching the six-hex-digit class,
`following` and `add` write exactly `FLW`/`ADD`, the task, a semicolon
and the six color digits with no hash sign, whether or not the input
color carried a leading hash; and any color whose first character is not
a hash passes through verbatim, with no length or digit validation. -/
theorem C3_wire_format (E : Type) (tr : Transport E) (t c : List Char)
    (hc : isHexColor c = true) :
    writesOf (following tr t c).1 = ["FLW".toList ++ t ++ ';' :: c] ∧
    writesOf (add tr t c).1 = ["ADD".toList ++ t ++ ';' :: c] ∧
    writesOf (following tr t ('#' :: c)).1 = ["FLW".toList ++ t ++ ';' :: c] ∧
    writesOf (add tr t ('#' :: c)).1 = ["ADD".toList ++ t ++ ';' :: c] ∧
    (∀ c' : List Char, c'.head? ≠ some '#' →
      writesOf (following tr t c').1 = ["FLW".toList ++ t ++ ';' :: c'] ∧
      writesOf (add tr t c').1 = ["ADD".toList ++ t ++ ';' :: c']) := by
  have hs := stripHash_of_isHexColor c hc
  refine ⟨?_, ?_, ?_, ?_, ?_⟩
  · rw [writesOf_following, followingPayload, hs]
  · rw [writesOf_add, addPayload, hs]
  · rw [writesOf_following, followingPayload, stripHash_hash]
  · rw [writesOf_add, addPayload, stripHash_hash]
  · intro c' hc'
    constructor
    · rw [writesOf_following, followingPayload, stripHash_of_head_ne c' hc']
    · rw [writesOf_add, addPayload, stripHash_of_head_ne c' hc']

/-- Witness for C3: the concrete color `AABBCC`, bare and with a leading
hash, both produce the wire bytes `FLWto-do;AABBCC`. -/
theorem C3_wire_format_witness :
    writesOf (following (⟨Except.ok 3, Except.ok 1⟩ : Transport Unit)
        "todo".toList "AABBCC".toList).1 =
      ["FLW".toList ++ "todo".toList ++ ';' :: "AABBCC".toList] ∧
    writesOf (following (⟨Except.ok 3, Except.ok 1⟩ : Transport Unit)
        "todo".toList ('#' :: "AABBCC".toList)).1 =
      ["FLW".toList ++ "todo".toList ++ ';' :: "AABBCC".toList] := by
  have h := C3_wire_format Unit (⟨Except.ok 3, Except.ok 1⟩ : Transport Unit)
    "todo".toList "AABBCC".toList (by decide)
  exact ⟨h.1, h.2.2.1⟩

/-- C6: `next` writes exactly the three bytes `NXT` and `swap` exactly
the three bytes `SWP`, each in a single write with nothing appended,
before the one-byte acknowledgment read. -/
theorem C6_next_swap_wire (E : Type) (tr : Transport E) :
    writesOf (next tr).1 = [['N', 'X', 'T']] ∧
    writesOf (swap tr).1 = [['S', 'W', 'P']] ∧
    countReads (next tr).1 ≤ 1 ∧ countReads (swap tr).1 ≤ 1 := by
  rcases tr with ⟨w, r⟩
  cases w <;> cases r <;>
    exact ⟨rfl, rfl, by simp [next, countReads], by simp [swap, countReads]⟩

/-- C9: only a single leading hash is stripped: a color starting with
two hash characters keeps its second hash on the wire, for both
`following` and `add`. -/
theorem C9_single_hash_stripped (E : Type) (tr : Transport E)
    (t rest : List Char) :
    writesOf (following tr t ('#' :: '#' :: rest)).1 =
      ["FLW".toList ++ t ++ ';' :: '#' :: rest] ∧
    writesOf (add tr t ('#' :: '#' :: rest)).1 =
      ["ADD".toList ++ t ++ ';' :: '#' :: rest] := by
  constructor
  · rw [writesOf_following, followingPayload, stripHash_hash]
  · rw [writesOf_add, addPayload, stripHash_hash]

/-- C4: each mutating operation succeeds exactly when both its write and
its subsequent read completed, and any error it returns is the
underlying cause: either the write's failure, or — after a successful
write — the read's failure; in particular a successful write followed by
a failed read is an overall failure, with no partial-success result. -/
theorem C4_mutating_success_iff (E : Type) (tr : Transport E)
    (t c : List Char) :
    ((next tr).2 = Except.ok () ↔
      isOkb tr.writeRes = true ∧ isOkb tr.readRes = true) ∧
    ((swap tr).2 = Except.ok () ↔
      isOkb tr.writeRes = true ∧ isOkb tr.readRes = true) ∧
    ((following tr t c).2 = Except.ok () ↔
      isOkb tr.writeRes = true ∧ isOkb tr.readRes = true) ∧
    ((add tr t c).2 = Except.ok () ↔
      isOkb tr.writeRes = true ∧ isOkb tr.readRes = true) ∧
    (∀ e : E, (next tr).2 = Except.error e →
      tr.writeRes = Except.error e ∨
        (isOkb tr.writeRes = true ∧ tr.readRes = Except.error e)) ∧
    (∀ e : E, (swap tr).2 = Except.error e →
      tr.writeRes = Except.error e ∨
        (isOkb tr.writeRes = true ∧ tr.readRes = Except.error e)) ∧
    (∀ e : E, (following tr t c).2 = Except.error e →
      tr.writeRes = Except.error e ∨
        (isOkb tr.writeRes = true ∧ tr.readRes = Except.error e)) ∧
    (∀ e : E, (add tr t c).2 = Except.error e →
      tr.writeRes = Except.error e ∨
        (isOkb tr.writeRes = true ∧ tr.readRes = Except.error e)) := by
  rcases tr with ⟨w, r⟩
  cases w <;> cases r <;> simp [next, swap, following, add, isOkb]

/-- Witness for C4: with a successful write and a failed read, `next`
reports overall failure carrying the read's cause, and with both calls
successful it reports success. -/
theorem C4_mutating_success_iff_witness :
    (next (⟨Except.ok 3, Except.ok 1⟩ : Transport Unit)).2 = Except.ok () ∧
    ¬ (next (⟨Except.ok 3, Except.error ()⟩ : Transport Unit)).2 =
        Except.ok () := by
  constructor
  · exact (C4_mutating_success_iff Unit
      (⟨Except.ok 3, Except.ok 1⟩ : Transport Unit) [] []).1.mpr
      (by constructor <;> rfl)
  · intro h
    have := (C4_mutating_success_iff Unit
      (⟨Except.ok 3, Except.error ()⟩ : Transport Unit) [] []).1.mp h
    simp [isOkb] at this

/-- C5: `test` writes the literal bytes `ping` and `raw` writes its
payload verbatim, each exactly once (never retried); the one-byte read
is attempted exactly once for every combination of outcomes, so a write
failure does not suppress the read attempt; and the write and read
outcomes are reported independently — each report is present exactly
when the corresponding call had that outcome, whatever the other call
did.  In the source both functions return unit, so no error reaches the
caller; the trace is their whole behaviour. -/
theorem C5_test_raw_best_effort (E : Type) (tr : Transport E)
    (p : List Char) :
    writesOf (test tr) = ["ping".toList] ∧
    writesOf (raw tr p) = [p] ∧
    countReads (test tr) = 1 ∧
    countReads (raw tr p) = 1 ∧
    (∀ n, Ev.reportWriteOk n ∈ test tr ↔ tr.writeRes = Except.ok n) ∧
    (∀ e, Ev.reportWriteErr e ∈ test tr ↔ tr.writeRes = Except.error e) ∧
    (∀ n, Ev.reportReadOk n ∈ test tr ↔ tr.readRes = Except.ok n) ∧
    (∀ e, Ev.reportReadErr e ∈ test tr ↔ tr.readRes = Except.error e) ∧
    (∀ n, Ev.reportWriteOk n ∈ raw tr p ↔ tr.writeRes = Except.ok n) ∧
    (∀ e, Ev.reportWriteErr e ∈ raw tr p ↔ tr.writeRes = Except.error e) ∧
    (∀ n, Ev.reportReadOk n ∈ raw tr p ↔ tr.readRes = Except.ok n) ∧
    (∀ e, Ev.reportReadErr e ∈ raw tr p ↔ tr.readRes = Except.error e) := by
  rcases tr with ⟨w, r⟩
  cases w <;> cases r <;>
    simp [test, raw, writesOf, countReads, eq_comm]

/-- Witness for C5: against a transport that succeeds the write and
fails the read, `test` still reports the write success (the read failure
does not suppress it) and still attempts its single read. -/
theorem C5_test_raw_best_effort_witness :
    (Ev.reportWriteOk 4 ∈ test (⟨Except.ok 4, Except.error ()⟩ :
        Transport Unit)) ∧
    countReads (test (⟨Except.ok 4, Except.error ()⟩ : Transport Unit)) =
      1 := by
  have h := C5_test_raw_best_effort Unit
    (⟨Except.ok 4, Except.error ()⟩ : Transport Unit) []
  exact ⟨(h.2.2.2.2.1 4).mpr rfl, h.2.2.1⟩

theorem toHexAux_eq_toHexW :
    ∀ (fuel n : Nat) (acc : List Char), n < fuel →
      toHexAux fuel n acc = toHexW n ++ acc := by
  intro fuel
  induction fuel with
  | zero => intro n acc h; omega
  | succ f ih =>
    intro n acc h
    by_cases h16 : n < 16
    · simp only [toHexAux, if_pos h16]
      rw [toHexW, dif_pos h16]
      rfl
    · simp only [toHexAux, if_neg h16]
      have hdiv : n / 16 < f := by omega
      rw [ih (n / 16) _ hdiv]
      conv_rhs => rw [toHexW]
      rw [dif_neg h16]
      simp

theorem toHexUpper_eq_toHexW (n : Nat) : toHexUpper n = toHexW n := by
  have h := toHexAux_eq_toHexW (n + 1) n [] (by omega)
  simpa [toHexUpper] using h

theorem hexDigitVal_hexDigitChar {d : Nat} (h : d < 16) :
    hexDigitVal (hexDigitChar d) = d := by
  interval_cases d <;> decide

theorem foldl_hexDigitVal_toHexW (n : Nat) : ∀ a : Nat,
    List.foldl (fun acc c => 16 * acc + hexDigitVal c) a (toHexW n) =
      a * 16 ^ (toHexW n).length + n := by
  induction n using Nat.strong_induction_on with
  | _ n ih =>
    intro a
    by_cases h : n < 16
    · rw [toHexW, dif_pos h]
      simp [List.foldl, hexDigitVal_hexDigitChar h]
      ring
    · rw [toHexW, dif_neg h]
      have hlt : n / 16 < n := by omega
      rw [List.foldl_append, ih (n / 16) hlt a]
      have hm : n % 16 < 16 := by omega
      simp only [List.foldl, hexDigitVal_hexDigitChar hm,
        List.length_append, List.length_singleton]
      have hdm : 16 * (n / 16) + n % 16 = n := by omega
      calc 16 * (a * 16 ^ (toHexW (n / 16)).length + n / 16) + n % 16
          = a * (16 ^ (toHexW (n / 16)).length * 16) +
              (16 * (n / 16) + n % 16) := by ring
        _ = a * 16 ^ ((toHexW (n / 16)).length + 1) + n := by
            rw [pow_succ, hdm]

theorem foldl_hexDigitVal_replicate_zero (k : Nat) :
    List.foldl (fun a c => 16 * a + hexDigitVal c) 0
      (List.replicate k '0') = 0 := by
  induction k with
  | zero => rfl
  | succ k ih =>
    rw [List.replicate_succ, List.foldl_cons]
    have h0 : 16 * 0 + hexDigitVal '0' = 0 := by decide
    rw [h0]
    exact ih

theorem toHexW_length_le : ∀ k n : Nat, n < 16 ^ (k + 1) →
    (toHexW n).length ≤ k + 1 := by
  intro k
  induction k with
  | zero =>
    intro n h
    rw [toHexW, dif_pos (by simpa using h)]
    simp
  | succ k ih =>
    intro n h
    by_cases h16 : n < 16
    · rw [toHexW, dif_pos h16]
      simp
    · rw [toHexW, dif_neg h16]
      have hdiv : n / 16 < 16 ^ (k + 1) := by
        rw [Nat.div_lt_iff_lt_mul (by norm_num : (0:Nat) < 16)]
        calc n < 16 ^ (k + 1 + 1) := h
          _ = 16 ^ (k + 1) * 16 := by rw [pow_succ]
      have hl := ih (n / 16) hdiv
      simp only [List.length_append, List.length_singleton]
      omega

theorem padLeft6_length {l : List Char} (h : l.length ≤ 6) :
    (padLeft6 l).length = 6 := by
  simp [padLeft6]
  omega

/-- C7: the random-color formatting is a hash sign followed by the
uppercase hexadecimal digits of the value with no zero padding — any
value below 0x100000 yields fewer than 6 digits — and zero-padding the
digit part to 6 characters and parsing it back as hexadecimal recovers
the value, for every value in the inclusive range 0 to 16777215. -/
theorem C7_format_roundtrip (n : Nat) (hn : n ≤ 16777215) :
    formatColor n = '#' :: toHexUpper n ∧
    (n < 1048576 → (toHexUpper n).length < 6) ∧
    (padLeft6 (toHexUpper n)).length = 6 ∧
    fromHexUpper (padLeft6 (toHexUpper n)) = n := by
  have he : toHexUpper n = toHexW n := toHexUpper_eq_toHexW n
  have h166 : (16:Nat) ^ 6 = 16777216 := by norm_num
  have hlen6 : (toHexW n).length ≤ 6 := by
    apply toHexW_length_le 5 n
    omega
  refine ⟨rfl, ?_, ?_, ?_⟩
  · intro h5
    have h165 : (16:Nat) ^ 5 = 1048576 := by norm_num
    have := toHexW_length_le 4 n (by omega)
    rw [he]
    omega
  · rw [he]
    exact padLeft6_length hlen6
  · rw [he]
    unfold fromHexUpper padLeft6
    rw [List.foldl_append, foldl_hexDigitVal_replicate_zero,
      foldl_hexDigitVal_toHexW]
    simp

/-- Witness for C7: the value 0xAB formats to two digits, and padding to
6 digits and parsing recovers 171. -/
theorem C7_format_roundtrip_witness :
    fromHexUpper (padLeft6 (toHexUpper 171)) = 171 ∧
    (toHexUpper 171).length < 6 := by
  have h := C7_format_roundtrip 171 (by norm_num)
  exact ⟨h.2.2.2, h.2.1 (by norm_num)⟩

/-- C2 counterexample: 16777215 is not a possible output of the color
draw — `gen_range(0..16777215)` samples the half-open range, so the draw
is always at most 16777214 and the claimed inclusive upper end is never
produced. -/
theorem C2_no_draw_hits_16777215 :
    ¬ ∃ raw : Nat, gen_range 0 16777215 raw = 16777215 := by
  rintro ⟨raw, h⟩
  unfold gen_range at h
  omega

/-- C2 amended: every random color draw lies in the inclusive range 0 to
16777214, and every integer in that range — but not 16777215 — is a
possible output of the draw. -/
theorem C2_draw_range_amended :
    (∀ raw : Nat, gen_range 0 16777215 raw ≤ 16777214) ∧
    (∀ n : Nat, n ≤ 16777214 → gen_range 0 16777215 n = n) := by
  constructor
  · intro raw
    unfold gen_range
    omega
  · intro n hn
    unfold gen_range
    omega

/-- Witness for the amended C2: a large underlying draw still lands in
range, and 16777214 itself is reachable. -/
theorem C2_draw_range_amended_witness :
    gen_range 0 16777215 20000000 ≤ 16777214 ∧
    gen_range 0 16777215 16777214 = 16777214 :=
  ⟨C2_draw_range_amended.1 20000000,
    C2_draw_range_amended.2 16777214 (by norm_num)⟩

/-- C8: random-color mode only takes effect on the add path — when the
Following operation is selected (next and swap absent), no random value
is drawn whatever the Random flag says, and the dispatched color is the
Color argument, whose clap default is the string `#FFFFFF`; conversely,
any dispatch that drew a random value is an add dispatch whose color is
the formatted random draw. -/
theorem C8_random_only_on_add :
    (∀ (a : Args) (rawDraw : Nat) (t : List Char),
      a.next = false → a.swap = false → a.following = some t →
      a.color = defaultColor →
      chooseMutating a rawDraw =
        some (Dispatch.dfollowing t defaultColor, false)) ∧
    (∀ (a : Args) (rawDraw : Nat) (d : Dispatch),
      chooseMutating a rawDraw = some (d, true) →
      a.random = true ∧ a.next = false ∧ a.swap = false ∧
        a.following = none ∧
        ∃ task, a.add = some task ∧
          d = Dispatch.dadd task (randColorFormat rawDraw)) := by
  constructor
  · intro a rawDraw t hn hs hf hc
    simp [chooseMutating, hn, hs, hf, hc]
  · intro a rawDraw d h
    rcases a with ⟨an, asw, af, aa, ar, ac⟩
    cases an with
    | true => simp [chooseMutating] at h
    | false =>
      cases asw with
      | true => simp [chooseMutating] at h
      | false =>
        cases af with
        | some t => simp [chooseMutating] at h
        | none =>
          cases aa with
          | none => simp [chooseMutating] at h
          | some task =>
            cases ar with
            | false => simp [chooseMutating] at h
            | true =>
              simp [chooseMutating] at h
              refine ⟨rfl, rfl, rfl, rfl, task, rfl, ?_⟩
              subst h
              rfl

/-- Witness for C8: with Following selected, Random set and the default
color, the dispatch is a following command with color `#FFFFFF` and no
random value drawn, for a concrete draw. -/
theorem C8_random_only_on_add_witness :
    chooseMutating
        ⟨false, false, some "todo".toList, none, true, defaultColor⟩ 7 =
      some (Dispatch.dfollowing "todo".toList defaultColor, false) :=
  C8_random_only_on_add.1
    ⟨false, false, some "todo".toList, none, true, defaultColor⟩ 7
    "todo".toList rfl rfl rfl rfl

/-- C10: after a successful open, `main` unconditionally issues the
DTR-low call first; when it succeeds the RTS-low call follows; the
command phase is reached exactly when both line-control calls succeed,
so a failing one panics first (and a failed open issues no line call at
all) — a successful open alone does not guarantee any command is ever
attempted. -/
theorem C10_line_control_gate :
    (∀ dtrOk rtsOk : Bool,
      (mainSetup true dtrOk rtsOk).1.head? = some (LineCall.dtr false)) ∧
    (∀ rtsOk : Bool,
      (mainSetup true true rtsOk).1 =
        [LineCall.dtr false, LineCall.rts false]) ∧
    (∀ dtrOk rtsOk : Bool,
      ((mainSetup true dtrOk rtsOk).2 = SetupOutcome.commandPhase ↔
        dtrOk = true ∧ rtsOk = true)) ∧
    (mainSetup true false true).2 = SetupOutcome.linePanicked ∧
    (∀ dtrOk rtsOk : Bool,
      mainSetup false dtrOk rtsOk = ([], SetupOutcome.openPanicked)) := by
  decide

/-- Witness for C10: both line-control calls succeeding reaches the
command phase. -/
theorem C10_line_control_gate_witness :
    (mainSetup true true true).2 = SetupOutcome.commandPhase :=
  (C10_line_control_gate.2.2.1 true true).mpr ⟨rfl, rfl⟩

end TodoThreader
